import Mathlib

/-!
Shallow embedding of the MRI analysis platform's 2D-to-3D conversion pipeline.

Numeric code (client `src/client/src/services/3d-conversion.ts` and server
`src/server/services/3d-conversion-service.ts`, `src/server/routes.ts`) is
translated into executable Lean definitions.  JavaScript floating-point
arithmetic is embedded as exact rational arithmetic; the transcendental
functions `Math.exp` and `Math.sqrt` are passed in as explicit function
parameters (`rexp`, `rsqrt`), and JavaScript number-to-string formatting is
passed in as `numToStr`, so every definition stays a pure function of its
inputs.
-/

namespace MRI

/-- Input file as seen by `validateMedicalImageForConversion` (MIME type and
byte size are the only fields the function reads). -/
structure UploadFile where
  mimeType : String
  size : ℕ
  deriving DecidableEq

/-- Result record `{ valid: boolean; error?: string }`. -/
structure ValidationResult where
  valid : Bool
  error : Option String
  deriving DecidableEq

/-- The `validTypes` array of `validateMedicalImageForConversion`. -/
def validTypes : List String := ["image/jpeg", "image/png"]

/-- Client-side upload precondition check, from
`validateMedicalImageForConversion` in `3d-conversion.ts`. -/
def validateMedicalImageForConversion (file : UploadFile) : ValidationResult :=
  if !(validTypes.contains file.mimeType) then
    { valid := false
      error := some "Only JPG and PNG medical images are supported for 3D conversion" }
  else if 50 * 1024 * 1024 < file.size then
    { valid := false
      error := some "Medical image file too large for 3D conversion (max 50MB)" }
  else
    { valid := true, error := none }

/-- The `processingStatus` field of a stored scan. -/
inductive ProcessingStatus where
  | pending
  | processing
  | completed
  | failed
  deriving DecidableEq

/-- The part of an `MriScan` record that `POST /api/scans/:id/convert` reads
and writes. -/
structure ScanRecord where
  filename : String
  processingStatus : ProcessingStatus
  deriving DecidableEq

/-- Storage keyed by scan id, as exposed by `storage.getMriScan` and
`storage.updateMriScan`. -/
def Storage : Type := String → Option ScanRecord

/-- Handler for `POST /api/scans/:id/convert` from `routes.ts`: look the scan
up; missing scan gives 404; a scan already `processing` or `completed` gives
400 and no write; otherwise the status is set to `processing` (the background
`processImageToModel` job is outside this sequential model) and 200 is
returned.  The result is the HTTP status code and message together with the
storage after the request. -/
def convertScanHandler (st : Storage) (id : String) : (ℕ × String) × Storage :=
  match st id with
  | none => ((404, "Scan not found"), st)
  | some scan =>
    if scan.processingStatus = ProcessingStatus.processing ∨
        scan.processingStatus = ProcessingStatus.completed then
      ((400, "Scan is already being processed or completed"), st)
    else
      let st2 : Storage := fun k =>
        if k = id then some { scan with processingStatus := ProcessingStatus.processing }
        else st k
      ((200, "started"), st2)

/-- Server OBJ export from `generateOBJContent` in `3d-conversion-service.ts`.
The source splices `new Date().toISOString()` into the header, so the current
time is an explicit argument `now` here. -/
def generateOBJContent (scanId now : String) : String :=
  "# Medical 3D Model - Scan ID: " ++ scanId ++
  "\n# Generated by Medical Research Platform\n# Date: " ++ now ++
  "\n\n# Vertices\nv 0.0 0.0 0.0\nv 1.0 0.0 0.0\nv 0.5 1.0 0.0\nv 0.5 0.5 1.0\n\n# Texture coordinates\nvt 0.0 0.0\nvt 1.0 0.0\nvt 0.5 1.0\n\n# Normals\nvn 0.0 0.0 1.0\nvn 0.0 1.0 0.0\nvn 1.0 0.0 0.0\n\n# Faces\nf 1/1/1 2/2/2 3/3/3\nf 1/1/1 3/3/3 4/1/1\nf 2/2/2 3/3/3 4/1/1\nf 1/1/1 2/2/2 4/1/1\n\n# Medical metadata\n# Modality: MR\n# Anatomical Region: Brain\n# Processing: Enhanced for medical visualization\n"

/-- Server ASCII STL export from `generateSTLContent`: a fixed two-facet solid
whose name embeds the scan id; no timestamp. -/
def generateSTLContent (scanId : String) : String :=
  "solid Medical_Model_" ++ scanId ++
  "\nfacet normal 0.0 0.0 1.0\n  outer loop\n    vertex 0.0 0.0 0.0\n    vertex 1.0 0.0 0.0\n    vertex 0.5 1.0 0.0\n  endloop\nendfacet\nfacet normal 0.0 1.0 0.0\n  outer loop\n    vertex 0.0 0.0 0.0\n    vertex 0.5 1.0 0.0\n    vertex 0.5 0.5 1.0\n  endloop\nendfacet\nendsolid Medical_Model_" ++ scanId

/-- Server ASCII PLY export from `generatePLYContent`: fixed tetrahedron with
the scan id in a comment line; no timestamp. -/
def generatePLYContent (scanId : String) : String :=
  "ply\nformat ascii 1.0\ncomment Medical 3D Model - Scan ID: " ++ scanId ++
  "\ncomment Generated by Medical Research Platform\nelement vertex 4\nproperty float x\nproperty float y\nproperty float z\nelement face 4\nproperty list uchar int vertex_indices\nend_header\n0.0 0.0 0.0\n1.0 0.0 0.0\n0.5 1.0 0.0\n0.5 0.5 1.0\n3 0 1 2\n3 0 2 3\n3 1 2 3\n3 0 1 3"

/-- Decoded 2D raster handed to the pipeline: `width`, `height` and the flat
RGBA byte array (4 entries per pixel), from the `ImageData` the canvas
produces. -/
structure ImageData where
  width : ℕ
  height : ℕ
  data : List ℚ

/-- The `MedicalImageData` interface of `3d-conversion.ts`: a flat 3D scalar
grid with spacing and origin. -/
structure MedicalImageData where
  width : ℕ
  height : ℕ
  depth : ℕ
  data : List ℚ
  spacing : ℚ × ℚ × ℚ
  origin : ℚ × ℚ × ℚ

/-- Depth selection from `generateMedicalVolume`:
`Math.max(32, Math.min(64, Math.floor((width + height) / 20)))`. -/
def volumeDepth (width height : ℕ) : ℕ :=
  max 32 (min 64 ((width + height) / 20))

/-- Value of one synthesized voxel, from the body of the triple loop in
`generateMedicalVolume`: perceptual grayscale of the RGBA pixel times an
exponential depth-attenuation factor.  `rexp` stands for `Math.exp`. -/
def tissueValueAt (rexp : ℚ → ℚ) (img : ImageData) (depth : ℕ) (x y z : ℕ) : ℚ :=
  let imageIndex := (y * img.width + x) * 4
  let r := img.data.getD imageIndex 0
  let g := img.data.getD (imageIndex + 1) 0
  let b := img.data.getD (imageIndex + 2) 0
  let medicalGray := (299 / 1000) * r + (587 / 1000) * g + (114 / 1000) * b
  let centerZ : ℚ := (depth : ℚ) / 2
  let depthDistance := |(z : ℚ) - centerZ|
  let depthFactor := rexp (-(depthDistance * (5 / 100)))
  medicalGray * depthFactor

/-- Volume synthesis from `generateMedicalVolume`: the `z`/`y`/`x` loop nest
writes `volumeData[z*width*height + y*width + x]`, which is exactly the flat
order of this nested `bind`. -/
def generateMedicalVolume (rexp : ℚ → ℚ) (img : ImageData) : MedicalImageData :=
  let depth := volumeDepth img.width img.height
  { width := img.width
    height := img.height
    depth := depth
    data :=
      (List.range depth).flatMap fun z =>
        (List.range img.height).flatMap fun y =>
          (List.range img.width).map fun x => tissueValueAt rexp img depth x y z
    spacing := (1, 1, 2)
    origin := (0, 0, 0) }

/-- The 27 kernel offsets `(kz, ky, kx)` of the Gaussian loop nest in
`enhanceMedicalImage`, in source iteration order (`kz` outermost, `kx`
innermost). -/
def kernelOffsets : List (ℤ × ℤ × ℤ) :=
  [-1, 0, 1].flatMap fun kz => [-1, 0, 1].flatMap fun ky => [-1, 0, 1].map fun kx => (kz, ky, kx)

/-- Bounds test `nx >= 0 && nx < width && ny >= 0 && ny < height && nz >= 0 && nz < depth`
for the neighbor at offset `o = (kz, ky, kx)` of voxel `(x, y, z)`. -/
def offsetInBounds (w h d : ℕ) (x y z : ℕ) (o : ℤ × ℤ × ℤ) : Bool :=
  let nx := (x : ℤ) + o.2.2
  let ny := (y : ℤ) + o.2.1
  let nz := (z : ℤ) + o.1
  decide (0 ≤ nx ∧ nx < (w : ℤ) ∧ 0 ≤ ny ∧ ny < (h : ℤ) ∧ 0 ≤ nz ∧ nz < (d : ℤ))

/-- Kernel weight `Math.exp(-(kx*kx + ky*ky + kz*kz) / (2 * sigma * sigma))`
with the fixed `sigma = 1.0` of `enhanceMedicalImage`. -/
def gaussianWeight (rexp : ℚ → ℚ) (o : ℤ × ℤ × ℤ) : ℚ :=
  let sigma : ℚ := 1
  rexp (-(((o.2.2 * o.2.2 + o.2.1 * o.2.1 + o.1 * o.1 : ℤ) : ℚ)) / (2 * sigma * sigma))

/-- Neighbor lookup `data[nz*width*height + ny*width + nx]` for the in-bounds
neighbor of `(x, y, z)` at offset `o`. -/
def neighborValue (data : List ℚ) (w h : ℕ) (x y z : ℕ) (o : ℤ × ℤ × ℤ) : ℚ :=
  let nx := (x : ℤ) + o.2.2
  let ny := (y : ℤ) + o.2.1
  let nz := (z : ℤ) + o.1
  data.getD (nz * (w : ℤ) * (h : ℤ) + ny * (w : ℤ) + nx).toNat 0

/-- One output voxel of `enhanceMedicalImage`: the kernel loop accumulates
`sum` and `weight` over in-bounds neighbors, then divides (falling back to the
input voxel when the accumulated weight is not positive). -/
def enhancedAt (rexp : ℚ → ℚ) (data : List ℚ) (w h d : ℕ) (x y z : ℕ) : ℚ :=
  let acc := kernelOffsets.foldl
    (fun acc o =>
      if offsetInBounds w h d x y z o then
        (acc.1 + neighborValue data w h x y z o * gaussianWeight rexp o,
         acc.2 + gaussianWeight rexp o)
      else acc)
    ((0 : ℚ), (0 : ℚ))
  if 0 < acc.2 then acc.1 / acc.2 else data.getD (z * w * h + y * w + x) 0

/-- Gaussian smoothing stage `enhanceMedicalImage`: the output buffer holds
one value per `(x, y, z)` written in the same flat order as the input. -/
def enhanceMedicalImage (rexp : ℚ → ℚ) (vol : MedicalImageData) : MedicalImageData :=
  { vol with
    data :=
      (List.range vol.depth).flatMap fun z =>
        (List.range vol.height).flatMap fun y =>
          (List.range vol.width).map fun x =>
            enhancedAt rexp vol.data vol.width vol.height vol.depth x y z }

/-- Histogram bin of one voxel:
`Math.floor(Math.min(255, Math.max(0, data[i])))`. -/
def intensityBin (v : ℚ) : ℕ := (⌊min 255 (max 0 v)⌋).toNat

/-- The 256-bin histogram built at the start of `segmentAnatomicalStructures`:
bin `b` counts the voxels whose clamped floor is `b`. -/
def buildHistogram (data : List ℚ) : List ℕ :=
  (List.range 256).map fun b => data.countP fun v => intensityBin v == b

/-- Prefix count `wB` of the histogram: total count of bins `0 … n-1`. -/
def psum (hist : List ℕ) (n : ℕ) : ℚ :=
  ∑ i ∈ Finset.range n, (hist.getD i 0 : ℚ)

/-- Prefix weighted sum `sumB` of the histogram: `Σ i * hist[i]` over bins
`0 … n-1` (the source's `sum` loop is this at `n = hist.length`). -/
def wsum (hist : List ℕ) (n : ℕ) : ℚ :=
  ∑ i ∈ Finset.range n, (i : ℚ) * (hist.getD i 0 : ℚ)

/-- Threshold search loop of `calculateOtsuThreshold`, one recursive call per
iteration of `for (t = 0; t < histogram.length; t++)`; `fuel` is the number of
iterations left, and the running state is `(sumB, wB, varMax, thr)` exactly as
in the source (with `continue` on `wB == 0` and `break` on `wF == 0`). -/
def otsuGo (hist : List ℕ) (total sumAll : ℚ) :
    ℕ → ℕ → ℚ → ℚ → ℚ → ℕ → ℕ
  | 0, _, _, _, _, thr => thr
  | fuel + 1, t, sumB, wB, varMax, thr =>
    let hT : ℚ := (hist.getD t 0 : ℚ)
    let wB2 := wB + hT
    if wB2 = 0 then otsuGo hist total sumAll fuel (t + 1) sumB wB2 varMax thr
    else
      let wF := total - wB2
      if wF = 0 then thr
      else
        let sumB2 := sumB + (t : ℚ) * hT
        let mB := sumB2 / wB2
        let mF := (sumAll - sumB2) / wF
        let varBetween := wB2 * wF * (mB - mF) * (mB - mF)
        if varMax < varBetween then otsuGo hist total sumAll fuel (t + 1) sumB2 wB2 varBetween t
        else otsuGo hist total sumAll fuel (t + 1) sumB2 wB2 varMax thr

/-- Otsu threshold selection from `calculateOtsuThreshold(histogram, totalPixels)`. -/
def calculateOtsuThreshold (hist : List ℕ) (totalPixels : ℕ) : ℕ :=
  otsuGo hist (totalPixels : ℚ) (wsum hist hist.length) hist.length 0 0 0 0 0

/-- Four-band quantization applied to each voxel by
`segmentAnatomicalStructures` once the threshold is known. -/
def classifyVoxel (threshold : ℕ) (v : ℚ) : ℚ :=
  if v < (threshold : ℚ) * (3 / 10) then 0
  else if v < (threshold : ℚ) * (7 / 10) then 85
  else if v < (threshold : ℚ) then 170
  else 255

/-- The threshold `segmentAnatomicalStructures` computes for a voxel buffer:
Otsu on the 256-bin histogram with `totalPixels = data.length`. -/
def segThreshold (data : List ℚ) : ℕ :=
  calculateOtsuThreshold (buildHistogram data) data.length

/-- Segmentation stage `segmentAnatomicalStructures`: histogram, Otsu
threshold, then the four-band quantization of every voxel. -/
def segmentAnatomicalStructures (vol : MedicalImageData) : MedicalImageData :=
  { vol with data := vol.data.map (classifyVoxel (segThreshold vol.data)) }

/-- Client mesh record (flat coordinate list, face index list, flat normal
component list), the part of `Mesh3D` the invariants are about. -/
structure Mesh3D where
  vertices : List ℚ
  faces : List ℕ
  normals : List ℚ

/-- The fixed `isoValue = 128` of `generateAnatomicalMesh`. -/
def isoValue : ℚ := 128

/-- Corner sampling from `getCubeValues`: the eight values
`data[(z+dz)*width*height + (y+dy)*width + (x+dx)]` in `dz`/`dy`/`dx` order
(`data[index] || 0` reads 0 out of bounds, as `getD` does). -/
def getCubeValues (data : List ℚ) (x y z w h : ℕ) : List ℚ :=
  [0, 1].flatMap fun dz => [0, 1].flatMap fun dy => [0, 1].map fun dx =>
    data.getD ((z + dz) * w * h + (y + dy) * w + (x + dx)) 0

/-- Cell test from `shouldGenerateTriangles`: the count of corners strictly
above the iso-value is neither 0 nor 8. -/
def shouldGenerateTriangles (cubeValues : List ℚ) : Bool :=
  let aboveThreshold := (cubeValues.filter fun v => decide (isoValue < v)).length
  decide (0 < aboveThreshold ∧ aboveThreshold < cubeValues.length)

/-- Triangle emission from `generateCubeTriangles`: one fixed triangle
`(x,y,z) (x+1,y,z) (x,y+1,z)` when corner 0 is above and corner 7 at or below
the iso-value, otherwise nothing. -/
def generateCubeTriangles (x y z : ℕ) (cubeValues : List ℚ) : List ℚ :=
  if isoValue < cubeValues.getD 0 0 ∧ cubeValues.getD 7 0 ≤ isoValue then
    [(x : ℚ), (y : ℚ), (z : ℚ), (x : ℚ) + 1, (y : ℚ), (z : ℚ), (x : ℚ), (y : ℚ) + 1, (z : ℚ)]
  else []

/-- Face normal from `calculateTriangleNormal`: cross product of two edge
vectors, divided by its Euclidean length when that is positive, otherwise the
zero vector.  `rsqrt` stands for `Math.sqrt`. -/
def calculateTriangleNormal (rsqrt : ℚ → ℚ)
    (x1 y1 z1 x2 y2 z2 x3 y3 z3 : ℚ) : ℚ × ℚ × ℚ :=
  let v1x := x2 - x1
  let v1y := y2 - y1
  let v1z := z2 - z1
  let v2x := x3 - x1
  let v2y := y3 - y1
  let v2z := z3 - z1
  let nx := v1y * v2z - v1z * v2y
  let ny := v1z * v2x - v1x * v2z
  let nz := v1x * v2y - v1y * v2x
  let len := rsqrt (nx * nx + ny * ny + nz * nz)
  (if 0 < len then nx / len else 0,
   if 0 < len then ny / len else 0,
   if 0 < len then nz / len else 0)

/-- Accumulator of `generateAnatomicalMesh`: the growing `vertices`, `faces`
and `normals` arrays plus the running `vertexIndex` counter. -/
def MeshState : Type := List ℚ × List ℕ × List ℚ × ℕ

/-- The `for (i = 0; i < cubeVertices.length; i += 9)` loop of
`generateAnatomicalMesh`: each 9-coordinate chunk appends one triangle's
vertices, the face triple `(vertexIndex, vertexIndex+1, vertexIndex+2)`, and
the face normal repeated three times (`generateCubeTriangles` only ever
returns whole chunks, so no ragged tail arises). -/
def addTriangles (rsqrt : ℚ → ℚ) : List ℚ → MeshState → MeshState
  | t0 :: t1 :: t2 :: t3 :: t4 :: t5 :: t6 :: t7 :: t8 :: rest, (vs, fs, ns, vi) =>
    let nrm := calculateTriangleNormal rsqrt t0 t1 t2 t3 t4 t5 t6 t7 t8
    addTriangles rsqrt rest
      (vs ++ [t0, t1, t2, t3, t4, t5, t6, t7, t8],
       fs ++ [vi, vi + 1, vi + 2],
       ns ++ [nrm.1, nrm.2.1, nrm.2.2, nrm.1, nrm.2.1, nrm.2.2, nrm.1, nrm.2.1, nrm.2.2],
       vi + 3)
  | _, st => st

/-- Body of the cell loop of `generateAnatomicalMesh` at cell
`pos = (z, y, x)`. -/
def meshStep (rsqrt : ℚ → ℚ) (data : List ℚ) (w h : ℕ)
    (st : MeshState) (pos : ℕ × ℕ × ℕ) : MeshState :=
  let cubeValues := getCubeValues data pos.2.2 pos.2.1 pos.1 w h
  if shouldGenerateTriangles cubeValues then
    addTriangles rsqrt (generateCubeTriangles pos.2.2 pos.2.1 pos.1 cubeValues) st
  else st

/-- Cell positions `(z, y, x)` visited by `generateAnatomicalMesh`, `z`
outermost, each axis stopping one short of the volume extent. -/
def cubePositions (w h d : ℕ) : List (ℕ × ℕ × ℕ) :=
  (List.range (d - 1)).flatMap fun z =>
    (List.range (h - 1)).flatMap fun y =>
      (List.range (w - 1)).map fun x => (z, y, x)

/-- Surface extraction stage `generateAnatomicalMesh` (the bounding box and
STL string the source also bundles are derived separately, as
`calculateBoundingBox` and `generateSTLData` are in the source). -/
def generateAnatomicalMesh (rsqrt : ℚ → ℚ) (vol : MedicalImageData) : Mesh3D :=
  let st := (cubePositions vol.width vol.height vol.depth).foldl
    (meshStep rsqrt vol.data vol.width vol.height) ([], [], [], 0)
  { vertices := st.1, faces := st.2.1, normals := st.2.2.1 }

/-- Facet blocks of the client `generateSTLData` loop
(`for (i = 0; i < faces.length; i += 3)`): `i` is the running index used for
`normalIndex`; each face triple yields one facet block.  `numToStr` stands for
JavaScript number formatting in the template strings; missing array reads fall
back to 0 as the source's `|| 0` does.  (Faces built by the pipeline always
come in whole triples, so the ragged-tail case does not arise.) -/
def stlFacetLines (numToStr : ℚ → String) (vertices normals : List ℚ) :
    ℕ → List ℕ → List String
  | i, f1 :: f2 :: f3 :: rest =>
    let v1 := f1 * 3
    let v2 := f2 * 3
    let v3 := f3 * 3
    let normalIndex := i
    ("facet normal " ++ numToStr (normals.getD normalIndex 0) ++ " " ++
      numToStr (normals.getD (normalIndex + 1) 0) ++ " " ++
      numToStr (normals.getD (normalIndex + 2) 0)) ::
    "  outer loop" ::
    ("    vertex " ++ numToStr (vertices.getD v1 0) ++ " " ++
      numToStr (vertices.getD (v1 + 1) 0) ++ " " ++ numToStr (vertices.getD (v1 + 2) 0)) ::
    ("    vertex " ++ numToStr (vertices.getD v2 0) ++ " " ++
      numToStr (vertices.getD (v2 + 1) 0) ++ " " ++ numToStr (vertices.getD (v2 + 2) 0)) ::
    ("    vertex " ++ numToStr (vertices.getD v3 0) ++ " " ++
      numToStr (vertices.getD (v3 + 1) 0) ++ " " ++ numToStr (vertices.getD (v3 + 2) 0)) ::
    "  endloop" ::
    "endfacet" ::
    stlFacetLines numToStr vertices normals (i + 3) rest
  | _, _ => []

/-- Client ASCII STL export `generateSTLData(vertices, faces, normals)`:
header line, facet blocks, footer line, joined with newlines. -/
def generateSTLData (numToStr : ℚ → String)
    (vertices : List ℚ) (faces : List ℕ) (normals : List ℚ) : String :=
  String.intercalate "\n"
    (("solid MedicalModel" :: stlFacetLines numToStr vertices normals 0 faces) ++
      ["endsolid MedicalModel"])

/-- Inter-class variance induced by candidate level `t` on a histogram, written
from the specification's words: the background class holds bins `0 … t`, the
foreground class the rest; the variance is
`wB * wF * (mB - mF)^2` with class weights `wB`, `wF` and class means `mB`,
`mF`, and a level whose induced partition has an empty class has variance 0. -/
def interClassVariance (hist : List ℕ) (t : ℕ) : ℚ :=
  let total := psum hist hist.length
  let wB := psum hist (t + 1)
  let wF := total - wB
  if wB = 0 ∨ wF = 0 then 0
  else
    let sumB := wsum hist (t + 1)
    let mB := sumB / wB
    let mF := (wsum hist hist.length - sumB) / wF
    wB * wF * (mB - mF) * (mB - mF)

/-- Gaussian-weighted average over the in-bounds 3×3×3 neighbors of a voxel,
written from the specification's words: kernel weights
`exp(-(kx²+ky²+kz²)/(2σ²))` with `σ = 1`, the weight sum renormalized to the
in-bounds weights. -/
def gaussianAverage (rexp : ℚ → ℚ) (data : List ℚ) (w h d : ℕ) (x y z : ℕ) : ℚ :=
  let nbrs := kernelOffsets.filter (offsetInBounds w h d x y z)
  ((nbrs.map fun o => neighborValue data w h x y z o * gaussianWeight rexp o).sum) /
    ((nbrs.map fun o => gaussianWeight rexp o).sum)

/-- Concrete 1×1×1 volume with a single zero voxel, used to instantiate
universally quantified statements. -/
def testVol : MedicalImageData :=
  { width := 1, height := 1, depth := 1, data := [0], spacing := (1, 1, 2), origin := (0, 0, 0) }

/-- Concrete storage holding one scan that is already `processing`. -/
def testStorage : Storage := fun k =>
  if k = "scan-1" then some { filename := "f.png", processingStatus := ProcessingStatus.processing }
  else none

/-- Concrete 256-bin histogram with two occupied bins, used to instantiate
universally quantified statements about the threshold search. -/
def testHist : List ℕ := ((List.replicate 256 0).set 10 5).set 200 7

/-- What the specification promises of the threshold search's result `T` on a
histogram: `T` maximizes the inter-class variance over all candidate levels,
every strictly smaller level has strictly smaller variance (so `T` is the
first maximizer encountered), and `T` is a bin index (or the initial level 0). -/
def OtsuResultSpec (hist : List ℕ) (T : ℕ) : Prop :=
  (∀ u, u < hist.length → interClassVariance hist u ≤ interClassVariance hist T) ∧
  (∀ u, u < T → interClassVariance hist u < interClassVariance hist T) ∧
  (T < hist.length ∨ T = 0)

/-- Concrete 2×2×2 volume with one hot corner; its single cell straddles the
iso-value, so mesh extraction emits one triangle. -/
def testVol2 : MedicalImageData :=
  { width := 2, height := 2, depth := 2, data := [200, 0, 0, 0, 0, 0, 0, 0]
    spacing := (1, 1, 2), origin := (0, 0, 0) }

/-- What the specification promises of each consecutive normal triple in the
flat `normals` array: unit length (exactly, since the only emitted triangle
shape has an integer-length cross product) or the zero-safe fallback. -/
def NormalsOk (ns : List ℚ) : Prop :=
  ∀ j, 3 * j + 2 < ns.length →
    (ns.getD (3 * j) 0 * ns.getD (3 * j) 0 +
      ns.getD (3 * j + 1) 0 * ns.getD (3 * j + 1) 0 +
      ns.getD (3 * j + 2) 0 * ns.getD (3 * j + 2) 0 = 1) ∨
    (ns.getD (3 * j) 0 = 0 ∧ ns.getD (3 * j + 1) 0 = 0 ∧ ns.getD (3 * j + 2) 0 = 0)

/-- Invariant carried through the mesh-extraction fold: the running
`vertexIndex` counts the stored vertex triples (9 coordinates and 9 normal
components per triangle, `vertexIndex` advancing by 3), every face index so
far is below it, and every stored normal triple is unit or zero. -/
def MeshInv (st : MeshState) : Prop :=
  st.1.length = 3 * st.2.2.2 ∧
  st.2.2.1.length = 3 * st.2.2.2 ∧
  (∀ f ∈ st.2.1, f < st.2.2.2) ∧
  NormalsOk st.2.2.1

/-- Length of the flat buffer written by a `z`/`y`/`x` loop nest. -/
theorem length_tripleFlat (n m k : ℕ) (g : ℕ → ℕ → ℕ → ℚ) :
    ((List.range n).flatMap fun z => (List.range m).flatMap fun y =>
      (List.range k).map fun x => g z y x).length = n * m * k := by
  simp [List.length_flatMap, Function.comp_def, List.map_const', List.sum_replicate,
    smul_eq_mul, mul_assoc]

/-- C10: `validateMedicalImageForConversion` accepts exactly the files whose
MIME type is `image/jpeg` or `image/png` and whose size is at most
`50*1024*1024` bytes; every rejection carries a non-empty error message. -/
theorem validateMedicalImage_spec (file : UploadFile) :
    ((validateMedicalImageForConversion file).valid = true ↔
      ((file.mimeType = "image/jpeg" ∨ file.mimeType = "image/png") ∧
        file.size ≤ 50 * 1024 * 1024)) ∧
    ((validateMedicalImageForConversion file).valid = false →
      ∃ msg, (validateMedicalImageForConversion file).error = some msg ∧ msg ≠ "") := by
  have hc : validTypes.contains file.mimeType = true ↔
      (file.mimeType = "image/jpeg" ∨ file.mimeType = "image/png") := by
    simp [validTypes]
  unfold validateMedicalImageForConversion
  split_ifs with h1 h2
  · simp_all
  · simp_all
  · simp_all
    tauto

/-- C5: the depth of the synthesized volume is
`clamp(floor((width + height) / 20), 32, 64)`, a function of the image's
width and height alone, and always lies in `[32, 64]`. -/
theorem generateMedicalVolume_depth_spec (rexp : ℚ → ℚ) (img : ImageData) :
    (generateMedicalVolume rexp img).depth =
      max 32 (min 64 ((img.width + img.height) / 20)) ∧
    32 ≤ (generateMedicalVolume rexp img).depth ∧
    (generateMedicalVolume rexp img).depth ≤ 64 := by
  refine ⟨rfl, ?_, ?_⟩ <;>
    simp only [generateMedicalVolume, volumeDepth] <;>
    omega

/-- C2: synthesis produces a buffer of exactly `width*height*depth` voxels, and
both the enhancement and the segmentation stage keep `width`, `height`,
`depth` and the `voxels.length = width*height*depth` invariant. -/
theorem pipeline_shape_spec (rexp1 rexp2 : ℚ → ℚ) (img : ImageData) :
    (generateMedicalVolume rexp1 img).data.length =
      (generateMedicalVolume rexp1 img).width * (generateMedicalVolume rexp1 img).height *
        (generateMedicalVolume rexp1 img).depth ∧
    (enhanceMedicalImage rexp2 (generateMedicalVolume rexp1 img)).width =
      (generateMedicalVolume rexp1 img).width ∧
    (enhanceMedicalImage rexp2 (generateMedicalVolume rexp1 img)).height =
      (generateMedicalVolume rexp1 img).height ∧
    (enhanceMedicalImage rexp2 (generateMedicalVolume rexp1 img)).depth =
      (generateMedicalVolume rexp1 img).depth ∧
    (enhanceMedicalImage rexp2 (generateMedicalVolume rexp1 img)).data.length =
      (generateMedicalVolume rexp1 img).width * (generateMedicalVolume rexp1 img).height *
        (generateMedicalVolume rexp1 img).depth ∧
    (segmentAnatomicalStructures (enhanceMedicalImage rexp2 (generateMedicalVolume rexp1 img))).width =
      (generateMedicalVolume rexp1 img).width ∧
    (segmentAnatomicalStructures (enhanceMedicalImage rexp2 (generateMedicalVolume rexp1 img))).height =
      (generateMedicalVolume rexp1 img).height ∧
    (segmentAnatomicalStructures (enhanceMedicalImage rexp2 (generateMedicalVolume rexp1 img))).depth =
      (generateMedicalVolume rexp1 img).depth ∧
    (segmentAnatomicalStructures (enhanceMedicalImage rexp2 (generateMedicalVolume rexp1 img))).data.length =
      (generateMedicalVolume rexp1 img).width * (generateMedicalVolume rexp1 img).height *
        (generateMedicalVolume rexp1 img).depth := by
  refine ⟨?_, rfl, rfl, rfl, ?_, rfl, rfl, rfl, ?_⟩
  · show ((List.range _).flatMap fun z => (List.range _).flatMap fun y =>
      (List.range _).map fun x => tissueValueAt rexp1 img _ x y z).length = _
    rw [length_tripleFlat]
    show volumeDepth img.width img.height * img.height * img.width =
      img.width * img.height * volumeDepth img.width img.height
    ring
  · show ((List.range _).flatMap fun z => (List.range _).flatMap fun y =>
      (List.range _).map fun x => enhancedAt rexp2 _ _ _ _ x y z).length = _
    rw [length_tripleFlat]
    ring
  · show (List.map _ _).length = _
    rw [List.length_map]
    show ((List.range _).flatMap fun z => (List.range _).flatMap fun y =>
      (List.range _).map fun x => enhancedAt rexp2 _ _ _ _ x y z).length = _
    rw [length_tripleFlat]
    ring

/-- C4: when the stored scan for an id is already `processing` or `completed`,
a start-conversion request for that id is answered with HTTP 400 and the
storage is left completely unchanged. -/
theorem convertScan_duplicate_reject (st : Storage) (id : String) (scan : ScanRecord)
    (hscan : st id = some scan)
    (hstatus : scan.processingStatus = ProcessingStatus.processing ∨
      scan.processingStatus = ProcessingStatus.completed) :
    (convertScanHandler st id).1.1 = 400 ∧ (convertScanHandler st id).2 = st := by
  unfold convertScanHandler
  rw [hscan]
  simp [hstatus]

/-- Witness for `convertScan_duplicate_reject` at a concrete storage whose
single scan is `processing`. -/
theorem convertScan_duplicate_reject_witness :
    (convertScanHandler testStorage "scan-1").1.1 = 400 ∧
    (convertScanHandler testStorage "scan-1").2 = testStorage :=
  convertScan_duplicate_reject testStorage "scan-1"
    { filename := "f.png", processingStatus := ProcessingStatus.processing }
    rfl (Or.inl rfl)

/-- C3 as stated is false: the OBJ serializer is not a function of the mesh
and format alone — it splices the current timestamp into the `# Date:` header
line, so serializing the very same model at two different instants yields
different bytes. -/
theorem generateOBJContent_not_time_invariant :
    generateOBJContent "scan-1" "2025-01-01T00:00:00.000Z" ≠
      generateOBJContent "scan-1" "2025-01-02T00:00:00.000Z" := by
  decide

set_option maxRecDepth 8000 in
/-- C3 amended: STL and PLY serialization read nothing but the scan id, and
the OBJ output for a fixed scan id is byte-identical exactly when the embedded
generation timestamps coincide. -/
theorem exportSerializer_determinism (scanId now1 now2 : String) :
    (generateOBJContent scanId now1 = generateOBJContent scanId now2 ↔ now1 = now2) := by
  constructor
  · intro heq
    have h2 := congrArg String.data heq
    simp only [generateOBJContent, String.data_append] at h2
    have h3 := List.append_cancel_right h2
    have h4 := List.append_cancel_left h3
    cases now1
    cases now2
    exact congrArg String.mk h4
  · intro h
    rw [h]

/-- C6: segmentation sends each voxel to exactly one of the four class levels
0, 85, 170, 255, chosen by comparing the input voxel against `0.3×`, `0.7×`
and `1×` the single computed Otsu threshold. -/
theorem segment_classifies (vol : MedicalImageData) (i : ℕ) (hi : i < vol.data.length) :
    (vol.data.getD i 0 < (segThreshold vol.data : ℚ) * (3 / 10) →
      (segmentAnatomicalStructures vol).data.getD i 0 = 0) ∧
    ((segThreshold vol.data : ℚ) * (3 / 10) ≤ vol.data.getD i 0 →
      vol.data.getD i 0 < (segThreshold vol.data : ℚ) * (7 / 10) →
      (segmentAnatomicalStructures vol).data.getD i 0 = 85) ∧
    ((segThreshold vol.data : ℚ) * (7 / 10) ≤ vol.data.getD i 0 →
      vol.data.getD i 0 < (segThreshold vol.data : ℚ) →
      (segmentAnatomicalStructures vol).data.getD i 0 = 170) ∧
    ((segThreshold vol.data : ℚ) ≤ vol.data.getD i 0 →
      (segmentAnatomicalStructures vol).data.getD i 0 = 255) ∧
    ((segmentAnatomicalStructures vol).data.getD i 0 = 0 ∨
      (segmentAnatomicalStructures vol).data.getD i 0 = 85 ∨
      (segmentAnatomicalStructures vol).data.getD i 0 = 170 ∨
      (segmentAnatomicalStructures vol).data.getD i 0 = 255) := by
  have ho : (segmentAnatomicalStructures vol).data.getD i 0 =
      classifyVoxel (segThreshold vol.data) (vol.data.getD i 0) := by
    show (vol.data.map (classifyVoxel (segThreshold vol.data))).getD i 0 = _
    rw [List.getD_eq_getElem?_getD, List.getElem?_map, List.getElem?_eq_getElem hi]
    rw [List.getD_eq_getElem?_getD, List.getElem?_eq_getElem hi]
    rfl
  rw [ho]
  unfold classifyVoxel
  split_ifs with h1 h2 h3
  · refine ⟨fun _ => rfl, ?_, ?_, ?_, Or.inl rfl⟩ <;> intros <;> linarith
  · refine ⟨?_, fun _ _ => rfl, ?_, ?_, Or.inr (Or.inl rfl)⟩ <;> intros <;> linarith
  · refine ⟨?_, ?_, fun _ _ => rfl, ?_, Or.inr (Or.inr (Or.inl rfl))⟩ <;> intros <;> linarith
  · refine ⟨?_, ?_, ?_, fun _ => rfl, Or.inr (Or.inr (Or.inr rfl))⟩ <;> intros <;> linarith

/-- One more bin extends the prefix count by that bin's count. -/
theorem psum_succ (hist : List ℕ) (n : ℕ) :
    psum hist (n + 1) = psum hist n + (hist.getD n 0 : ℚ) := by
  unfold psum
  exact Finset.sum_range_succ _ n

/-- One more bin extends the prefix weighted sum by `n * hist[n]`. -/
theorem wsum_succ (hist : List ℕ) (n : ℕ) :
    wsum hist (n + 1) = wsum hist n + (n : ℚ) * (hist.getD n 0 : ℚ) := by
  unfold wsum
  exact Finset.sum_range_succ _ n

/-- Prefix counts are sums of nonnegative casts. -/
theorem psum_nonneg (hist : List ℕ) (n : ℕ) : 0 ≤ psum hist n := by
  unfold psum
  exact Finset.sum_nonneg fun i _ => by positivity

/-- Prefix counts grow monotonically. -/
theorem psum_mono (hist : List ℕ) {m n : ℕ} (h : m ≤ n) :
    psum hist m ≤ psum hist n := by
  unfold psum
  exact Finset.sum_le_sum_of_subset_of_nonneg (Finset.range_subset.mpr h)
    fun i _ _ => by positivity

/-- Beyond the histogram's length the prefix count no longer changes. -/
theorem psum_stable (hist : List ℕ) {n : ℕ} (h : hist.length ≤ n) :
    psum hist n = psum hist hist.length := by
  induction n with
  | zero =>
    have : hist.length = 0 := by omega
    rw [this]
  | succ n ihn =>
    rcases Nat.lt_or_ge hist.length (n + 1) with hlt | hge
    · have hn : hist.length ≤ n := by omega
      rw [psum_succ, List.getD_eq_default _ _ hn, ihn hn]
      simp
    · have : hist.length = n + 1 := by omega
      rw [this]

/-- Every prefix count is at most the total count. -/
theorem psum_le_total (hist : List ℕ) (n : ℕ) :
    psum hist n ≤ psum hist hist.length := by
  rcases Nat.le_total n hist.length with h | h
  · exact psum_mono hist h
  · rw [psum_stable hist h]

/-- Inter-class variance is never negative. -/
theorem interVar_nonneg (hist : List ℕ) (t : ℕ) :
    0 ≤ interClassVariance hist t := by
  simp only [interClassVariance]
  split_ifs with h
  · exact le_refl 0
  · push_neg at h
    obtain ⟨h1, h2⟩ := h
    have hw1 : 0 ≤ psum hist (t + 1) := psum_nonneg hist (t + 1)
    have hw2 : 0 ≤ psum hist hist.length - psum hist (t + 1) := by
      have := psum_le_total hist (t + 1)
      linarith
    have hD := mul_self_nonneg
      (wsum hist (t + 1) / psum hist (t + 1) -
        (wsum hist hist.length - wsum hist (t + 1)) /
          (psum hist hist.length - psum hist (t + 1)))
    have hprod : 0 ≤ psum hist (t + 1) * (psum hist hist.length - psum hist (t + 1)) :=
      mul_nonneg hw1 hw2
    nlinarith [mul_nonneg hprod hD]

/-- A level whose background class is empty has inter-class variance 0. -/
theorem interVar_of_wB_zero (hist : List ℕ) (t : ℕ)
    (h : psum hist (t + 1) = 0) : interClassVariance hist t = 0 := by
  simp only [interClassVariance]
  rw [if_pos (Or.inl h)]

/-- A level whose foreground class is empty has inter-class variance 0. -/
theorem interVar_of_wF_zero (hist : List ℕ) (t : ℕ)
    (h : psum hist (t + 1) = psum hist hist.length) :
    interClassVariance hist t = 0 := by
  simp only [interClassVariance]
  rw [if_pos (Or.inr (by rw [h]; ring))]

/-- Loop invariant of the Otsu threshold search: entered at level `t` with the
true prefix sums in `sumB`/`wB` and a running maximum `varMax` achieved first
at `thr` (or still at its initial zero), the loop returns a first maximizer of
the inter-class variance over all candidate levels. -/
theorem otsuGo_invariant (hist : List ℕ) (fuel : ℕ) :
    ∀ (t : ℕ) (varMax : ℚ) (thr : ℕ),
      fuel + t = hist.length →
      0 ≤ varMax →
      (∀ u, u < t → interClassVariance hist u ≤ varMax) →
      ((varMax = 0 ∧ thr = 0) ∨
        (thr < t ∧ interClassVariance hist thr = varMax ∧
          ∀ u, u < thr → interClassVariance hist u < varMax)) →
      OtsuResultSpec hist
        (otsuGo hist (psum hist hist.length) (wsum hist hist.length) fuel t
          (wsum hist t) (psum hist t) varMax thr) := by
  induction fuel with
  | zero =>
    intro t varMax thr hfuel hvm0 hall hthr
    have ht : t = hist.length := by omega
    subst ht
    simp only [otsuGo]
    unfold OtsuResultSpec
    rcases hthr with ⟨hv0, ht0⟩ | ⟨hlt, heq, hstrict⟩
    · subst hv0
      subst ht0
      refine ⟨?_, fun u hu => absurd hu (Nat.not_lt_zero u), Or.inr rfl⟩
      intro u hu
      have hzero : interClassVariance hist 0 = 0 :=
        le_antisymm (hall 0 (by omega)) (interVar_nonneg hist 0)
      rw [hzero]
      exact hall u hu
    · refine ⟨?_, ?_, Or.inl (by omega)⟩
      · intro u hu
        rw [heq]
        exact hall u hu
      · intro u hu
        rw [heq]
        exact hstrict u hu
  | succ fuel ih =>
    intro t varMax thr hfuel hvm0 hall hthr
    have htlen : t < hist.length := by omega
    simp only [otsuGo]
    rw [← psum_succ hist t, ← wsum_succ hist t]
    split_ifs with h1 h2 h3
    · -- continue branch: this level's bin keeps the background class empty
      have hg : (hist.getD t 0 : ℚ) = 0 := by
        have h0 := psum_nonneg hist t
        have hs := psum_succ hist t
        have hgn : (0 : ℚ) ≤ (hist.getD t 0 : ℚ) := by positivity
        linarith
      rw [show wsum hist t = wsum hist (t + 1) by rw [wsum_succ, hg]; ring]
      refine ih (t + 1) varMax thr (by omega) hvm0 ?_ ?_
      · intro u hu
        rcases Nat.lt_or_ge u t with h | h
        · exact hall u h
        · have hut : u = t := by omega
          subst hut
          rw [interVar_of_wB_zero hist u h1]
          exact hvm0
      · rcases hthr with h | ⟨ha, hb, hc⟩
        · exact Or.inl h
        · exact Or.inr ⟨by omega, hb, hc⟩
    · -- break branch: the prefix already holds the whole histogram
      have hge : ∀ u, t ≤ u → interClassVariance hist u = 0 := by
        intro u hu
        apply interVar_of_wF_zero
        have hm1 : psum hist (t + 1) ≤ psum hist (u + 1) := psum_mono hist (by omega)
        have hm2 : psum hist (u + 1) ≤ psum hist hist.length := psum_le_total hist (u + 1)
        linarith
      unfold OtsuResultSpec
      rcases hthr with ⟨hv0, ht0⟩ | ⟨hlt, heq, hstrict⟩
      · subst hv0
        subst ht0
        refine ⟨?_, fun u hu => absurd hu (Nat.not_lt_zero u), Or.inr rfl⟩
        intro u hu
        have hzero : interClassVariance hist 0 = 0 := by
          rcases Nat.eq_zero_or_pos t with ht0' | ht0'
          · exact hge 0 (by omega)
          · exact le_antisymm (hall 0 ht0') (interVar_nonneg hist 0)
        rw [hzero]
        rcases Nat.lt_or_ge u t with h | h
        · exact hall u h
        · exact le_of_eq (hge u h)
      · refine ⟨?_, ?_, Or.inl (by omega)⟩
        · intro u hu
          rw [heq]
          rcases Nat.lt_or_ge u t with h | h
          · exact hall u h
          · rw [hge u h]
            exact hvm0
        · intro u hu
          rw [heq]
          exact hstrict u hu
    · -- update branch: this level strictly improves the running maximum
      have hfB : interClassVariance hist t =
          psum hist (t + 1) * (psum hist hist.length - psum hist (t + 1)) *
            (wsum hist (t + 1) / psum hist (t + 1) -
              (wsum hist hist.length - wsum hist (t + 1)) /
                (psum hist hist.length - psum hist (t + 1))) *
            (wsum hist (t + 1) / psum hist (t + 1) -
              (wsum hist hist.length - wsum hist (t + 1)) /
                (psum hist hist.length - psum hist (t + 1))) := by
        simp only [interClassVariance]
        rw [if_neg]
        push_neg
        exact ⟨h1, h2⟩
      rw [← hfB] at h3 ⊢
      refine ih (t + 1) (interClassVariance hist t) t (by omega)
        (le_trans hvm0 (le_of_lt h3)) ?_ ?_
      · intro u hu
        rcases Nat.lt_or_ge u t with h | h
        · exact le_trans (hall u h) (le_of_lt h3)
        · have hut : u = t := by omega
          subst hut
          exact le_refl _
      · exact Or.inr ⟨Nat.lt_succ_self t, rfl,
          fun u hu => lt_of_le_of_lt (hall u hu) h3⟩
    · -- keep branch: this level does not improve the running maximum
      have hfB : interClassVariance hist t =
          psum hist (t + 1) * (psum hist hist.length - psum hist (t + 1)) *
            (wsum hist (t + 1) / psum hist (t + 1) -
              (wsum hist hist.length - wsum hist (t + 1)) /
                (psum hist hist.length - psum hist (t + 1))) *
            (wsum hist (t + 1) / psum hist (t + 1) -
              (wsum hist hist.length - wsum hist (t + 1)) /
                (psum hist hist.length - psum hist (t + 1))) := by
        simp only [interClassVariance]
        rw [if_neg]
        push_neg
        exact ⟨h1, h2⟩
      have hBle : interClassVariance hist t ≤ varMax := by
        rw [hfB]
        exact not_lt.mp h3
      refine ih (t + 1) varMax thr (by omega) hvm0 ?_ ?_
      · intro u hu
        rcases Nat.lt_or_ge u t with h | h
        · exact hall u h
        · have hut : u = t := by omega
          subst hut
          exact hBle
      · rcases hthr with h | ⟨ha, hb, hc⟩
        · exact Or.inl h
        · exact Or.inr ⟨by omega, hb, hc⟩

/-- The total count of a histogram, cast to ℚ, is the full prefix count. -/
theorem cast_sum_eq_psum (hist : List ℕ) :
    ((hist.sum : ℕ) : ℚ) = psum hist hist.length := by
  induction hist with
  | nil => simp [psum]
  | cons a l ihl =>
    unfold psum
    rw [List.length_cons, Finset.sum_range_succ']
    simp only [List.getD_cons_succ, List.getD_cons_zero]
    unfold psum at ihl
    rw [← ihl, List.sum_cons]
    push_cast
    ring

/-- The threshold search returns a first maximizer of the inter-class variance
whenever it is run with the histogram's true total count. -/
theorem otsu_first_argmax (hist : List ℕ) (total : ℕ)
    (htot : (total : ℚ) = psum hist hist.length) :
    OtsuResultSpec hist (calculateOtsuThreshold hist total) := by
  show OtsuResultSpec hist
    (otsuGo hist (total : ℚ) (wsum hist hist.length) hist.length 0 0 0 0 0)
  rw [htot]
  have hmain := otsuGo_invariant hist hist.length 0 0 0 (by omega) le_rfl
    (fun u hu => absurd hu (Nat.not_lt_zero u)) (Or.inl ⟨rfl, rfl⟩)
  rw [show wsum hist 0 = 0 by simp [wsum], show psum hist 0 = 0 by simp [psum]] at hmain
  exact hmain

/-- C1: on a 256-bin histogram with its true total count, the Otsu search
returns a threshold in `[0, 255]` whose inter-class variance is maximal among
all candidate levels, and every smaller level has strictly smaller variance —
the result is the first maximizing level encountered. -/
theorem calculateOtsuThreshold_spec (hist : List ℕ) (hlen : hist.length = 256)
    (total : ℕ) (htot : total = hist.sum) :
    calculateOtsuThreshold hist total ≤ 255 ∧
    (∀ t, t ≤ 255 →
      interClassVariance hist t ≤
        interClassVariance hist (calculateOtsuThreshold hist total)) ∧
    (∀ t, t < calculateOtsuThreshold hist total →
      interClassVariance hist t <
        interClassVariance hist (calculateOtsuThreshold hist total)) := by
  have hcast : (total : ℚ) = psum hist hist.length := by
    rw [htot]
    exact cast_sum_eq_psum hist
  obtain ⟨k1, k2, k3⟩ := otsu_first_argmax hist total hcast
  refine ⟨?_, ?_, k2⟩
  · rcases k3 with h | h
    · omega
    · omega
  · intro t ht
    exact k1 t (by omega)

/-- Witness for `calculateOtsuThreshold_spec` on the concrete two-bin test
histogram, whose threshold is bin 10. -/
theorem calculateOtsuThreshold_spec_witness :
    calculateOtsuThreshold testHist testHist.sum ≤ 255 :=
  (calculateOtsuThreshold_spec testHist
    (by unfold testHist; rw [List.length_set, List.length_set, List.length_replicate])
    testHist.sum rfl).1

/-- Every clamped voxel lands in one of the 256 histogram bins. -/
theorem intensityBin_lt (v : ℚ) : intensityBin v < 256 := by
  unfold intensityBin
  have h1 : min 255 (max 0 v) ≤ (255 : ℚ) := min_le_left _ _
  have h2 : ⌊min 255 (max 0 v)⌋ ≤ 255 := by
    calc ⌊min 255 (max 0 v)⌋ ≤ ⌊(255 : ℚ)⌋ := Int.floor_le_floor h1
    _ = 255 := by norm_num
  omega

/-- Counting a predicate over a constant list. -/
theorem countP_replicate_eq {α : Type} (n : ℕ) (v : α) (p : α → Bool) :
    (List.replicate n v).countP p = if p v then n else 0 := by
  induction n with
  | zero => simp
  | succ n ihn =>
    rw [List.replicate_succ, List.countP_cons, ihn]
    split_ifs with h <;> omega

/-- The histogram of a constant buffer is concentrated in a single bin. -/
theorem buildHistogram_replicate_getD (n : ℕ) (v : ℚ) (i : ℕ) :
    (buildHistogram (List.replicate n v)).getD i 0 =
      if intensityBin v = i then n else 0 := by
  rcases Nat.lt_or_ge i 256 with h | h
  · unfold buildHistogram
    rw [List.getD_eq_getElem?_getD, List.getElem?_map, List.getElem?_range h]
    simp [countP_replicate_eq, beq_iff_eq]
  · rw [List.getD_eq_default]
    · rw [if_neg]
      have := intensityBin_lt v
      omega
    · unfold buildHistogram
      simp [h]

/-- Prefix counts of the single-bin histogram: everything or nothing. -/
theorem psum_singleBin (n : ℕ) (v : ℚ) (m : ℕ) :
    psum (buildHistogram (List.replicate n v)) m =
      if intensityBin v < m then (n : ℚ) else 0 := by
  unfold psum
  have hcongr : ∀ i : ℕ,
      ((buildHistogram (List.replicate n v)).getD i 0 : ℚ) =
        if intensityBin v = i then (n : ℚ) else 0 := by
    intro i
    rw [buildHistogram_replicate_getD]
    split_ifs <;> simp
  calc ∑ i ∈ Finset.range m, ((buildHistogram (List.replicate n v)).getD i 0 : ℚ)
      = ∑ i ∈ Finset.range m, if intensityBin v = i then (n : ℚ) else 0 :=
        Finset.sum_congr rfl fun i _ => hcongr i
    _ = if intensityBin v ∈ Finset.range m then (n : ℚ) else 0 :=
        Finset.sum_ite_eq _ _ _
    _ = if intensityBin v < m then (n : ℚ) else 0 := by simp [Finset.mem_range]

/-- On the histogram of a constant buffer every candidate level has
inter-class variance 0: one of the two induced classes is always empty. -/
theorem interVar_singleBin (n : ℕ) (v : ℚ) (t : ℕ) :
    interClassVariance (buildHistogram (List.replicate n v)) t = 0 := by
  have hlen : (buildHistogram (List.replicate n v)).length = 256 := by
    unfold buildHistogram
    simp
  rcases Nat.lt_or_ge t (intensityBin v) with h | h
  · apply interVar_of_wB_zero
    rw [psum_singleBin, if_neg (by omega)]
  · apply interVar_of_wF_zero
    rw [psum_singleBin, psum_singleBin, hlen,
      if_pos (by omega), if_pos (by have := intensityBin_lt v; omega)]

/-- On a constant voxel buffer the Otsu search returns its initial level 0. -/
theorem segThreshold_replicate (n : ℕ) (v : ℚ) :
    segThreshold (List.replicate n v) = 0 := by
  unfold segThreshold
  have hc : (((List.replicate n v).length : ℕ) : ℚ) =
      psum (buildHistogram (List.replicate n v))
        (buildHistogram (List.replicate n v)).length := by
    have hlen : (buildHistogram (List.replicate n v)).length = 256 := by
      unfold buildHistogram
      simp
    rw [hlen, psum_singleBin, if_pos (intensityBin_lt v), List.length_replicate]
  obtain ⟨k1, k2, k3⟩ := otsu_first_argmax _ _ hc
  by_contra hne
  have hpos : 0 < calculateOtsuThreshold (buildHistogram (List.replicate n v))
      (List.replicate n v).length := Nat.pos_of_ne_zero hne
  have hk := k2 0 hpos
  rw [interVar_singleBin, interVar_singleBin] at hk
  exact lt_irrefl 0 hk

/-- C9: on a completely uniform volume the threshold search terminates with
the boundary threshold 0 (the search's initial level), and segmentation then
sends every voxel to the single class 255. -/
theorem uniform_volume_single_class (vol : MedicalImageData) (n : ℕ) (v : ℚ)
    (hdata : vol.data = List.replicate n v) (hv : 0 ≤ v) :
    segThreshold vol.data = 0 ∧
    (segmentAnatomicalStructures vol).data = List.replicate n (255 : ℚ) := by
  have hthr : segThreshold vol.data = 0 := by
    rw [hdata]
    exact segThreshold_replicate n v
  refine ⟨hthr, ?_⟩
  show vol.data.map (classifyVoxel (segThreshold vol.data)) = _
  rw [hthr, hdata, List.map_replicate]
  have h3 : ¬(v < ((0 : ℕ) : ℚ) * (3 / 10)) := by push_cast; linarith
  have h7 : ¬(v < ((0 : ℕ) : ℚ) * (7 / 10)) := by push_cast; linarith
  have h1 : ¬(v < ((0 : ℕ) : ℚ)) := by push_cast; linarith
  have hclass : classifyVoxel 0 v = 255 := by
    unfold classifyVoxel
    rw [if_neg h3, if_neg h7, if_neg h1]
  rw [hclass]

/-- Witness for `uniform_volume_single_class` on the 1×1×1 constant volume. -/
theorem uniform_volume_single_class_witness :
    segThreshold testVol.data = 0 ∧
    (segmentAnatomicalStructures testVol).data = List.replicate 1 (255 : ℚ) :=
  uniform_volume_single_class testVol 1 0 rfl le_rfl

/-- A conditional pair-accumulating `foldl` computes the two sums over the
filtered list. -/
theorem foldl_filter_pair {α : Type} (p : α → Bool) (f g : α → ℚ) :
    ∀ (l : List α) (s w : ℚ),
      l.foldl (fun acc o => if p o then (acc.1 + f o, acc.2 + g o) else acc) (s, w) =
        (s + ((l.filter p).map f).sum, w + ((l.filter p).map g).sum) := by
  intro l
  induction l with
  | nil =>
    intro s w
    simp
  | cons a l ihl =>
    intro s w
    by_cases hpa : p a
    · simp only [List.foldl_cons, if_pos hpa, ihl, List.filter_cons, hpa, ite_true,
        List.map_cons, List.sum_cons]
      rw [add_assoc, add_assoc]
    · simp only [List.foldl_cons, if_neg hpa, ihl, List.filter_cons, hpa,
        Bool.false_eq_true, ite_false]

/-- Length of the flat buffer written by a `y`/`x` loop nest. -/
theorem length_doubleFlat (m k : ℕ) (g : ℕ → ℕ → ℚ) :
    ((List.range m).flatMap fun y => (List.range k).map fun x => g y x).length = m * k := by
  simp [List.length_flatMap, Function.comp_def, List.map_const', List.sum_replicate,
    smul_eq_mul]

/-- Indexing into a `flatMap` whose chunks all have length `k`. -/
theorem flatMap_const_length_getD (L : List ℕ) (g : ℕ → List ℚ) (k : ℕ)
    (hlen : ∀ a ∈ L, (g a).length = k) :
    ∀ (i j : ℕ), i < L.length → j < k →
      (L.flatMap g).getD (i * k + j) 0 = (g (L.getD i 0)).getD j 0 := by
  induction L with
  | nil =>
    intro i j hi _
    exact absurd hi (Nat.not_lt_zero i)
  | cons a L ihl =>
    intro i j hi hj
    have hga : (g a).length = k := hlen a (List.mem_cons_self a L)
    cases i with
    | zero =>
      rw [List.flatMap_cons]
      simp only [Nat.zero_mul, Nat.zero_add]
      rw [List.getD_append _ _ _ _ (by omega)]
      rfl
    | succ i =>
      rw [List.flatMap_cons]
      have hidx : (i + 1) * k + j = (g a).length + (i * k + j) := by
        rw [hga]
        ring
      rw [hidx, List.getD_append_right _ _ _ _ (by omega)]
      have hsub : (g a).length + (i * k + j) - (g a).length = i * k + j := by omega
      rw [hsub]
      exact ihl (fun b hb => hlen b (List.mem_cons_of_mem a hb)) i j
        (by simpa using hi) hj

/-- Indexing into the flat buffer written by a `z`/`y`/`x` loop nest at the
flat position `z*(m*k) + y*k + x`. -/
theorem tripleFlat_getD (n m k : ℕ) (g : ℕ → ℕ → ℕ → ℚ) (z y x : ℕ)
    (hz : z < n) (hy : y < m) (hx : x < k) :
    ((List.range n).flatMap fun z2 => (List.range m).flatMap fun y2 =>
      (List.range k).map fun x2 => g z2 y2 x2).getD (z * (m * k) + (y * k + x)) 0 =
      g z y x := by
  have hyx : y * k + x < m * k := by
    calc y * k + x < y * k + k := by omega
    _ = (y + 1) * k := by ring
    _ ≤ m * k := Nat.mul_le_mul_right k hy
  rw [flatMap_const_length_getD (List.range n) _ (m * k)
    (fun a _ => length_doubleFlat m k (g a)) z (y * k + x) (by simpa using hz) hyx]
  have hrz : (List.range n).getD z 0 = z := by
    rw [List.getD_eq_getElem?_getD, List.getElem?_range hz]
    rfl
  rw [hrz]
  rw [flatMap_const_length_getD (List.range m) _ k
    (fun a _ => by simp) y x (by simpa using hy) hx]
  have hry : (List.range m).getD y 0 = y := by
    rw [List.getD_eq_getElem?_getD, List.getElem?_range hy]
    rfl
  rw [hry, List.getD_eq_getElem?_getD, List.getElem?_map, List.getElem?_range hx]
  rfl

/-- The centre offset is always among the in-bounds kernel offsets of an
in-bounds voxel. -/
theorem center_offset_inBounds (w h d x y z : ℕ)
    (hx : x < w) (hy : y < h) (hz : z < d) :
    ((0 : ℤ), (0 : ℤ), (0 : ℤ)) ∈ kernelOffsets.filter (offsetInBounds w h d x y z) := by
  rw [List.mem_filter]
  refine ⟨by decide, ?_⟩
  unfold offsetInBounds
  simp only [decide_eq_true_eq]
  omega

/-- C7: at every in-bounds voxel the enhancement filter's output equals the
Gaussian-weighted average of the in-bounds 3×3×3 neighbors, with the weight
sum renormalized to the in-bounds weights (`rexp` is `Math.exp`, assumed
positive as the real exponential is). -/
theorem enhance_gaussian_average (rexp : ℚ → ℚ) (hpos : ∀ q, 0 < rexp q)
    (vol : MedicalImageData) (x y z : ℕ)
    (hx : x < vol.width) (hy : y < vol.height) (hz : z < vol.depth) :
    (enhanceMedicalImage rexp vol).data.getD
        (z * vol.width * vol.height + y * vol.width + x) 0 =
      gaussianAverage rexp vol.data vol.width vol.height vol.depth x y z := by
  have hidx : z * vol.width * vol.height + y * vol.width + x =
      z * (vol.height * vol.width) + (y * vol.width + x) := by ring
  have hget : (enhanceMedicalImage rexp vol).data.getD
      (z * (vol.height * vol.width) + (y * vol.width + x)) 0 =
      enhancedAt rexp vol.data vol.width vol.height vol.depth x y z := by
    show ((List.range vol.depth).flatMap fun z2 => (List.range vol.height).flatMap fun y2 =>
      (List.range vol.width).map fun x2 =>
        enhancedAt rexp vol.data vol.width vol.height vol.depth x2 y2 z2).getD
        (z * (vol.height * vol.width) + (y * vol.width + x)) 0 = _
    exact tripleFlat_getD vol.depth vol.height vol.width _ z y x hz hy hx
  rw [hidx, hget]
  unfold enhancedAt gaussianAverage
  rw [foldl_filter_pair]
  have hwpos : 0 < ((kernelOffsets.filter
      (offsetInBounds vol.width vol.height vol.depth x y z)).map
        fun o => gaussianWeight rexp o).sum := by
    apply List.sum_pos
    · intro q hq
      obtain ⟨o, _, ho⟩ := List.mem_map.mp hq
      rw [← ho]
      exact hpos _
    · intro hnil
      have hc := center_offset_inBounds vol.width vol.height vol.depth x y z hx hy hz
      exact absurd hnil (List.ne_nil_of_mem (List.mem_map_of_mem _ hc))
  simp only [zero_add]
  rw [if_pos hwpos]

/-- Witness for `enhance_gaussian_average` on the 1×1×1 test volume with the
constant-1 stand-in for `Math.exp`. -/
theorem enhance_gaussian_average_witness :
    (enhanceMedicalImage (fun _ => (1 : ℚ)) testVol).data.getD
        (0 * testVol.width * testVol.height + 0 * testVol.width + 0) 0 =
      gaussianAverage (fun _ => (1 : ℚ)) testVol.data testVol.width testVol.height
        testVol.depth 0 0 0 :=
  enhance_gaussian_average (fun _ => (1 : ℚ)) (fun _ => one_pos) testVol 0 0 0
    (by decide) (by decide) (by decide)

/-- The only triangle shape `generateCubeTriangles` emits has edge vectors
`(1,0,0)` and `(0,1,0)`, whose cross product already has length exactly 1, so
its normal is `(0, 0, 1)` for any square root satisfying `rsqrt 1 = 1`. -/
theorem normal_of_emitted_triangle (rsqrt : ℚ → ℚ) (h1 : rsqrt 1 = 1) (x y z : ℕ) :
    calculateTriangleNormal rsqrt (x : ℚ) (y : ℚ) (z : ℚ) ((x : ℚ) + 1) (y : ℚ) (z : ℚ)
      (x : ℚ) ((y : ℚ) + 1) (z : ℚ) = (0, 0, 1) := by
  have hnx : ((y : ℚ) - y) * ((z : ℚ) - z) - ((z : ℚ) - z) * ((y : ℚ) + 1 - y) = 0 := by
    ring
  have hny : ((z : ℚ) - z) * ((x : ℚ) - x) - ((x : ℚ) + 1 - x) * ((z : ℚ) - z) = 0 := by
    ring
  have hnz : ((x : ℚ) + 1 - x) * ((y : ℚ) + 1 - y) - ((y : ℚ) - y) * ((x : ℚ) - x) = 1 := by
    ring
  simp only [calculateTriangleNormal, hnx, hny, hnz]
  norm_num [h1]

/-- Closed form of one pass of the `i += 9` loop in `generateAnatomicalMesh`. -/
theorem addTriangles_nine (rsqrt : ℚ → ℚ) (t0 t1 t2 t3 t4 t5 t6 t7 t8 : ℚ)
    (vs : List ℚ) (fs : List ℕ) (ns : List ℚ) (vi : ℕ) :
    addTriangles rsqrt [t0, t1, t2, t3, t4, t5, t6, t7, t8] (vs, fs, ns, vi) =
      (vs ++ [t0, t1, t2, t3, t4, t5, t6, t7, t8],
       fs ++ [vi, vi + 1, vi + 2],
       ns ++ [(calculateTriangleNormal rsqrt t0 t1 t2 t3 t4 t5 t6 t7 t8).1,
         (calculateTriangleNormal rsqrt t0 t1 t2 t3 t4 t5 t6 t7 t8).2.1,
         (calculateTriangleNormal rsqrt t0 t1 t2 t3 t4 t5 t6 t7 t8).2.2,
         (calculateTriangleNormal rsqrt t0 t1 t2 t3 t4 t5 t6 t7 t8).1,
         (calculateTriangleNormal rsqrt t0 t1 t2 t3 t4 t5 t6 t7 t8).2.1,
         (calculateTriangleNormal rsqrt t0 t1 t2 t3 t4 t5 t6 t7 t8).2.2,
         (calculateTriangleNormal rsqrt t0 t1 t2 t3 t4 t5 t6 t7 t8).1,
         (calculateTriangleNormal rsqrt t0 t1 t2 t3 t4 t5 t6 t7 t8).2.1,
         (calculateTriangleNormal rsqrt t0 t1 t2 t3 t4 t5 t6 t7 t8).2.2],
       vi + 3) := rfl

/-- Appending one triangle's data (9 coordinates, the face triple starting at
the current `vertexIndex`, and a unit-or-zero normal repeated three times)
preserves the mesh invariant. -/
theorem meshInv_append (vs : List ℚ) (fs : List ℕ) (ns : List ℚ) (vi : ℕ)
    (hInv : MeshInv (vs, fs, ns, vi)) (coords : List ℚ) (hc : coords.length = 9)
    (n1 n2 n3 : ℚ)
    (hOk : n1 * n1 + n2 * n2 + n3 * n3 = 1 ∨ (n1 = 0 ∧ n2 = 0 ∧ n3 = 0)) :
    MeshInv (vs ++ coords, fs ++ [vi, vi + 1, vi + 2],
      ns ++ [n1, n2, n3, n1, n2, n3, n1, n2, n3], vi + 3) := by
  unfold MeshInv at hInv ⊢
  dsimp only at hInv ⊢
  obtain ⟨hvs, hns, hfs, hNs⟩ := hInv
  refine ⟨?_, ?_, ?_, ?_⟩
  · show (vs ++ coords).length = 3 * (vi + 3)
    rw [List.length_append, hvs, hc]
    ring
  · show (ns ++ [n1, n2, n3, n1, n2, n3, n1, n2, n3]).length = 3 * (vi + 3)
    rw [List.length_append, hns]
    simp only [List.length_cons, List.length_nil]
    omega
  · intro f hf
    rcases List.mem_append.mp hf with h | h
    · exact lt_trans (hfs f h) (by omega)
    · simp only [List.mem_cons, List.not_mem_nil, or_false] at h
      rcases h with h | h | h <;> omega
  · intro j hj
    rw [List.length_append, hns] at hj
    simp only [List.length_cons, List.length_nil] at hj
    rcases Nat.lt_or_ge j vi with hjv | hjv
    · rw [List.getD_append _ _ _ _ (by rw [hns]; omega),
        List.getD_append _ _ _ _ (by rw [hns]; omega),
        List.getD_append _ _ _ _ (by rw [hns]; omega)]
      exact hNs j (by rw [hns]; omega)
    · have hr : j = vi ∨ j = vi + 1 ∨ j = vi + 2 := by omega
      have key : ∀ r : ℕ, r < 9 →
          (ns ++ [n1, n2, n3, n1, n2, n3, n1, n2, n3]).getD (3 * vi + r) 0 =
            [n1, n2, n3, n1, n2, n3, n1, n2, n3].getD r 0 := by
        intro r _
        rw [List.getD_append_right _ _ _ _ (by rw [hns]; omega)]
        congr 1
        rw [hns]
        omega
      have k0 : (ns ++ [n1, n2, n3, n1, n2, n3, n1, n2, n3]).getD (3 * vi) 0 = n1 := by
        simpa using key 0 (by omega)
      have k1 : (ns ++ [n1, n2, n3, n1, n2, n3, n1, n2, n3]).getD (3 * vi + 1) 0 = n2 := by
        simpa using key 1 (by omega)
      have k2 : (ns ++ [n1, n2, n3, n1, n2, n3, n1, n2, n3]).getD (3 * vi + 2) 0 = n3 := by
        simpa using key 2 (by omega)
      have k3 : (ns ++ [n1, n2, n3, n1, n2, n3, n1, n2, n3]).getD (3 * (vi + 1)) 0 = n1 := by
        rw [show 3 * (vi + 1) = 3 * vi + 3 from by ring]
        simpa using key 3 (by omega)
      have k4 : (ns ++ [n1, n2, n3, n1, n2, n3, n1, n2, n3]).getD (3 * (vi + 1) + 1) 0 = n2 := by
        rw [show 3 * (vi + 1) + 1 = 3 * vi + 4 from by ring]
        simpa using key 4 (by omega)
      have k5 : (ns ++ [n1, n2, n3, n1, n2, n3, n1, n2, n3]).getD (3 * (vi + 1) + 2) 0 = n3 := by
        rw [show 3 * (vi + 1) + 2 = 3 * vi + 5 from by ring]
        simpa using key 5 (by omega)
      have k6 : (ns ++ [n1, n2, n3, n1, n2, n3, n1, n2, n3]).getD (3 * (vi + 2)) 0 = n1 := by
        rw [show 3 * (vi + 2) = 3 * vi + 6 from by ring]
        simpa using key 6 (by omega)
      have k7 : (ns ++ [n1, n2, n3, n1, n2, n3, n1, n2, n3]).getD (3 * (vi + 2) + 1) 0 = n2 := by
        rw [show 3 * (vi + 2) + 1 = 3 * vi + 7 from by ring]
        simpa using key 7 (by omega)
      have k8 : (ns ++ [n1, n2, n3, n1, n2, n3, n1, n2, n3]).getD (3 * (vi + 2) + 2) 0 = n3 := by
        rw [show 3 * (vi + 2) + 2 = 3 * vi + 8 from by ring]
        simpa using key 8 (by omega)
      rcases hr with h | h | h <;> rw [h]
      · rw [k0, k1, k2]
        exact hOk
      · rw [k3, k4, k5]
        exact hOk
      · rw [k6, k7, k8]
        exact hOk

/-- One cell visit of the mesh-extraction loop preserves the invariant. -/
theorem meshStep_inv (rsqrt : ℚ → ℚ) (h1 : rsqrt 1 = 1) (data : List ℚ) (w h : ℕ)
    (st : MeshState) (hInv : MeshInv st) (pos : ℕ × ℕ × ℕ) :
    MeshInv (meshStep rsqrt data w h st pos) := by
  obtain ⟨z, y, x⟩ := pos
  simp only [meshStep]
  split_ifs with hgen
  · unfold generateCubeTriangles
    split_ifs with hcube
    · obtain ⟨vs, fs, ns, vi⟩ := st
      rw [addTriangles_nine, normal_of_emitted_triangle rsqrt h1 x y z]
      refine meshInv_append vs fs ns vi hInv _ ?_ 0 0 1 (Or.inl (by norm_num))
      rfl
    · exact hInv
  · exact hInv

/-- The mesh-extraction fold preserves the invariant from any start state. -/
theorem meshFold_inv (rsqrt : ℚ → ℚ) (h1 : rsqrt 1 = 1) (data : List ℚ) (w h : ℕ) :
    ∀ (ps : List (ℕ × ℕ × ℕ)) (st : MeshState), MeshInv st →
      MeshInv (ps.foldl (meshStep rsqrt data w h) st) := by
  intro ps
  induction ps with
  | nil =>
    intro st hInv
    exact hInv
  | cons p ps ih =>
    intro st hInv
    exact ih _ (meshStep_inv rsqrt h1 data w h st hInv p)

/-- C8: in every extracted mesh each face index denotes an existing stored
vertex (it is below the number of stored vertex triples), and every normal
triple is unit length or the zero-safe fallback. -/
theorem generateAnatomicalMesh_valid (rsqrt : ℚ → ℚ) (h1 : rsqrt 1 = 1)
    (vol : MedicalImageData) :
    (∀ f ∈ (generateAnatomicalMesh rsqrt vol).faces,
      f < (generateAnatomicalMesh rsqrt vol).vertices.length / 3) ∧
    NormalsOk (generateAnatomicalMesh rsqrt vol).normals := by
  have hInv := meshFold_inv rsqrt h1 vol.data vol.width vol.height
    (cubePositions vol.width vol.height vol.depth) ([], [], [], 0)
    ⟨rfl, rfl, fun f hf => absurd hf (List.not_mem_nil f),
      fun j hj => absurd hj (by simp)⟩
  obtain ⟨hvs, hns, hfs, hNs⟩ := hInv
  constructor
  · intro f hf
    show f < (((cubePositions vol.width vol.height vol.depth).foldl
      (meshStep rsqrt vol.data vol.width vol.height) ([], [], [], 0)).1.length) / 3
    rw [hvs, Nat.mul_div_cancel_left _ (by norm_num : 0 < 3)]
    exact hfs f hf
  · show NormalsOk (((cubePositions vol.width vol.height vol.depth).foldl
      (meshStep rsqrt vol.data vol.width vol.height) ([], [], [], 0)).2.2.1)
    exact hNs

/-- Witness for `generateAnatomicalMesh_valid` on the 2×2×2 hot-corner volume
(one emitted triangle), with the identity standing in for `Math.sqrt` at 1. -/
theorem generateAnatomicalMesh_valid_witness :
    (∀ f ∈ (generateAnatomicalMesh id testVol2).faces,
      f < (generateAnatomicalMesh id testVol2).vertices.length / 3) ∧
    NormalsOk (generateAnatomicalMesh id testVol2).normals :=
  generateAnatomicalMesh_valid id rfl testVol2

/-- Witness for `segment_classifies` on the 1×1×1 test volume: its threshold
is 0, its single voxel 0, so the voxel lands in the 255 class. -/
theorem segment_classifies_witness :
    (segmentAnatomicalStructures testVol).data.getD 0 0 = 255 :=
  (segment_classifies testVol 0 (by decide)).2.2.2.1
    (by
      show (segThreshold (List.replicate 1 (0 : ℚ)) : ℚ) ≤ (0 : ℚ)
      rw [segThreshold_replicate]
      norm_num)

end MRI
